import Mathlib

/-!
Shallow embedding of the infinite-canvas core: the viewport (camera) system
of `src/core/viewport/ViewportManager.ts` and the keyboard navigation
controller of `src/core/navigation/KeyboardNavigationManager.ts`, with the
shared types of `src/types/diagram.ts`.

Numbers are modelled as rationals (`ℚ`): all program arithmetic on the
verified paths is `+ - * /`, `min`/`max`, absolute value and comparisons,
which coincide with exact rational arithmetic except where noted
(`JsNum` models JavaScript division by zero where it matters).
-/

/-- Camera state `{x, y, zoom}` of `ViewportManager`. -/
@[ext] structure Viewport where
  x : ℚ
  y : ℚ
  zoom : ℚ
  deriving DecidableEq

/-- A 2D point `{x, y}`. -/
@[ext] structure Point where
  x : ℚ
  y : ℚ
  deriving DecidableEq

/-- A rectangle `{x, y, width, height}`. -/
@[ext] structure Bounds where
  x : ℚ
  y : ℚ
  width : ℚ
  height : ℚ
  deriving DecidableEq

/-- `ViewportManager` starts with `viewport = { x: 0, y: 0, zoom: 1 }`. -/
def initialViewport : Viewport := ⟨0, 0, 1⟩

/-- `screenToWorld`: `(p - (x, y)) / zoom`, componentwise. -/
def screenToWorld (v : Viewport) (p : Point) : Point :=
  ⟨(p.x - v.x) / v.zoom, (p.y - v.y) / v.zoom⟩

/-- `worldToScreen`: `p * zoom + (x, y)`, componentwise. -/
def worldToScreen (v : Viewport) (p : Point) : Point :=
  ⟨p.x * v.zoom + v.x, p.y * v.zoom + v.y⟩

/-- `pan(deltaX, deltaY)` adds the deltas to the translation. -/
def pan (v : Viewport) (deltaX deltaY : ℚ) : Viewport :=
  ⟨v.x + deltaX, v.y + deltaY, v.zoom⟩

/-- `zoomAt(screenPoint, zoomFactor)`: remembers the world point under the
screen point, multiplies the zoom by the factor, clamps the zoom to
`[0.1, 5]`, reprojects the remembered world point with the new zoom and the
old translation, and shifts the translation by the screen-space difference. -/
def zoomAt (v : Viewport) (screenPoint : Point) (zoomFactor : ℚ) : Viewport :=
  let worldPoint := screenToWorld v screenPoint
  let newZoom := max (1/10) (min 5 (v.zoom * zoomFactor))
  let afterZoom : Viewport := ⟨v.x, v.y, newZoom⟩
  let newScreenPoint := worldToScreen afterZoom worldPoint
  ⟨v.x + (screenPoint.x - newScreenPoint.x),
   v.y + (screenPoint.y - newScreenPoint.y),
   newZoom⟩

/-- `setViewport(viewport)` replaces the stored camera state with a copy of
the argument; the source applies no clamping here. -/
def setViewport (_current : Viewport) (v : Viewport) : Viewport := v

/-- `getViewportBounds()`: world-space rectangle spanned by the
screen-space corners `(0,0)` and `(canvasW, canvasH)`. -/
def getViewportBounds (v : Viewport) (canvasW canvasH : ℚ) : Bounds :=
  let topLeft := screenToWorld v ⟨0, 0⟩
  let bottomRight := screenToWorld v ⟨canvasW, canvasH⟩
  ⟨topLeft.x, topLeft.y, bottomRight.x - topLeft.x, bottomRight.y - topLeft.y⟩

/-- Outcome of a JavaScript double computation on the `focusOnBounds` path:
a finite rational, a signed infinity, or NaN. -/
inductive JsNum where
  | fin (q : ℚ)
  | posInf
  | negInf
  | nan
  deriving DecidableEq

/-- JavaScript division: division by zero yields a signed infinity
(`NaN` for `0/0`); otherwise exact rational division. -/
def jsDiv (a b : ℚ) : JsNum :=
  if b = 0 then (if 0 < a then .posInf else if a < 0 then .negInf else .nan)
  else .fin (a / b)

/-- JavaScript `Math.min` on the extended numbers: NaN propagates,
`-Infinity` is smallest, `+Infinity` largest. -/
def jsMin (a b : JsNum) : JsNum :=
  match a, b with
  | .nan, _ => .nan
  | _, .nan => .nan
  | .negInf, _ => .negInf
  | _, .negInf => .negInf
  | .posInf, x => x
  | x, .posInf => x
  | .fin p, .fin q => .fin (min p q)

/-- The target zoom computed at the top of `focusOnBounds(bounds, padding)`:
`Math.min((canvas.width - padding*2) / bounds.width,
(canvas.height - padding*2) / bounds.height)`. The source divides by the
raw `bounds.width` and `bounds.height`; no epsilon floor is applied. -/
def focusTargetZoom (canvasW canvasH padding : ℚ) (bounds : Bounds) : JsNum :=
  jsMin (jsDiv (canvasW - padding * 2) bounds.width)
        (jsDiv (canvasH - padding * 2) bounds.height)

/-- The viewport mutations whose composition claim C1 quantifies over
once restricted to the operations that actually clamp or preserve zoom. -/
inductive PanZoomOp where
  | pan (deltaX deltaY : ℚ)
  | zoomAt (screenPoint : Point) (zoomFactor : ℚ)

/-- Apply one `pan`/`zoomAt` operation. -/
def applyPanZoom (v : Viewport) : PanZoomOp → Viewport
  | .pan dx dy => pan v dx dy
  | .zoomAt p f => zoomAt v p f

/-- Element kind `'class' | 'method' | 'interface'` (`cls` stands for the
source's `'class'`, a Lean keyword). -/
inductive ElemType where
  | cls
  | method
  | interface
  deriving DecidableEq

/-- `DiagramElement` of `src/types/diagram.ts`. -/
structure DiagramElement where
  id : String
  x : ℚ
  y : ℚ
  width : ℚ
  height : ℚ
  type : ElemType
  connections : List String
  deriving DecidableEq

/-- The `Map<string, DiagramElement>` of the controller, modelled as its
insertion-ordered entry list; `Map` keys are unique and both insertion of a
fresh key (append) and overwrite of an existing key (in-place update)
preserve iteration order, as do deletions on the remaining entries. -/
abbrev ElementStore := List DiagramElement

/-- Iteration order of the map keys (`Array.from(this.elements.keys())`). -/
def idsOf (s : ElementStore) : List String := s.map (·.id)

/-- `this.elements.get(id)`. -/
def getElement (s : ElementStore) (id : String) : Option DiagramElement :=
  s.find? (fun e => e.id == id)

/-- `this.elements.set(e.id, e)`: overwrite in place if the key exists,
otherwise append. -/
def storeSet (s : ElementStore) (e : DiagramElement) : ElementStore :=
  if s.any (fun o => o.id == e.id) then
    s.map (fun o => if o.id == e.id then e else o)
  else s ++ [e]

/-- Mode `'select' | 'create' | 'connect'`. -/
inductive Mode where
  | select
  | create
  | connect
  deriving DecidableEq

/-- `NavigationState` of `src/types/diagram.ts`. -/
structure NavigationState where
  selectedId : Option String
  mode : Mode
  focusHistory : List String
  deriving DecidableEq

/-- The mutable state of a `KeyboardNavigationManager` instance together
with the viewport it drives (the canvas dimensions stand for
`viewport.canvas.width/height`). -/
structure KeyboardNavigationManager where
  state : NavigationState
  elements : ElementStore
  viewport : Viewport
  canvasW : ℚ
  canvasH : ℚ
  deriving DecidableEq

/-- The navigation-state update performed by `selectElement(id)`:
set `selectedId`, remove `id` from `focusHistory`, push it at the end,
and `shift()` the oldest entry once the history exceeds 10 entries. -/
def stateAfterSelect (s : NavigationState) (id : String) : NavigationState :=
  let fh := (s.focusHistory.filter (fun i => i != id)) ++ [id]
  { s with
    selectedId := some id,
    focusHistory := if fh.length > 10 then fh.tail else fh }

/-- `selectElement(id)`; only the navigation state changes. -/
def selectElement (m : KeyboardNavigationManager) (id : String) :
    KeyboardNavigationManager :=
  { m with state := stateAfterSelect m.state id }

/-- `selectFirst()`: select the first element in store order, if any. -/
def selectFirst (m : KeyboardNavigationManager) : KeyboardNavigationManager :=
  match idsOf m.elements with
  | [] => m
  | k :: _ => selectElement m k

/-- JavaScript `Array.prototype.indexOf`: index of the first occurrence,
`-1` when absent. -/
def jsIndexOf (l : List String) (a : String) : Int :=
  match l.findIdx? (fun x => x == a) with
  | some i => (i : Int)
  | none => -1

/-- `navigateNext()` (`Tab`): cyclic successor in store order of the
selected id as located by `indexOf` (which yields `-1`, hence index `0`,
when the selected id is not a current key). -/
def navigateNext (m : KeyboardNavigationManager) : KeyboardNavigationManager :=
  match idsOf m.elements with
  | [] => m
  | k :: rest =>
    match m.state.selectedId with
    | none => selectElement m k
    | some sel =>
      let keys := k :: rest
      let currentIndex := jsIndexOf keys sel
      let nextIndex := ((currentIndex + 1) % (keys.length : Int)).toNat
      match keys[nextIndex]? with
      | some k2 => selectElement m k2
      | none => m

/-- `navigatePrevious()` (`Shift+Tab`): cyclic predecessor in store order;
with no selection it selects the last element. -/
def navigatePrevious (m : KeyboardNavigationManager) : KeyboardNavigationManager :=
  match idsOf m.elements with
  | [] => m
  | k :: rest =>
    match m.state.selectedId with
    | none =>
      match (k :: rest).getLast? with
      | some k' => selectElement m k'
      | none => m
    | some sel =>
      let keys := k :: rest
      let currentIndex := jsIndexOf keys sel
      let prevIndex := ((currentIndex - 1 + (keys.length : Int)) % (keys.length : Int)).toNat
      match keys[prevIndex]? with
      | some k2 => selectElement m k2
      | none => m

/-- Navigation direction. -/
inductive Direction where
  | left
  | right
  | up
  | down
  deriving DecidableEq

/-- `isInDirection(from, to, direction)` with its 30-pixel overlap
tolerance (`threshold`) on both the primary-axis edge comparison and the
perpendicular center band. -/
def isInDirection (fromEl toEl : DiagramElement) (direction : Direction) : Bool :=
  let threshold : ℚ := 30
  match direction with
  | .left =>
    decide (toEl.x + toEl.width < fromEl.x + threshold ∧
      |toEl.y + toEl.height/2 - fromEl.y - fromEl.height/2| < fromEl.height/2 + threshold)
  | .right =>
    decide (toEl.x > fromEl.x + fromEl.width - threshold ∧
      |toEl.y + toEl.height/2 - fromEl.y - fromEl.height/2| < fromEl.height/2 + threshold)
  | .up =>
    decide (toEl.y + toEl.height < fromEl.y + threshold ∧
      |toEl.x + toEl.width/2 - fromEl.x - fromEl.width/2| < fromEl.width/2 + threshold)
  | .down =>
    decide (toEl.y > fromEl.y + fromEl.height - threshold ∧
      |toEl.x + toEl.width/2 - fromEl.x - fromEl.width/2| < fromEl.width/2 + threshold)

/-- The squared center-to-center distance. `calculateDistance` in the
source returns `Math.sqrt` of this value; the square root is strictly
monotone on nonnegatives, so every distance comparison made by
`navigateSpatial` agrees with the comparison of these squares and the
chosen candidate is identical. -/
def calculateDistanceSq (fromEl toEl : DiagramElement) : ℚ :=
  let fromCenter : Point := ⟨fromEl.x + fromEl.width/2, fromEl.y + fromEl.height/2⟩
  let toCenter : Point := ⟨toEl.x + toEl.width/2, toEl.y + toEl.height/2⟩
  (toCenter.x - fromCenter.x)^2 + (toCenter.y - fromCenter.y)^2

/-- First candidate of minimal distance: the source stable-sorts the
candidate array by ascending distance and takes index 0, which is the
earliest candidate in iteration order achieving the minimum; the fold
keeps the current best on ties, computing exactly that element. -/
def closestCandidate (current : DiagramElement) (l : List DiagramElement) :
    Option DiagramElement :=
  l.foldl (fun acc e =>
    match acc with
    | none => some e
    | some b =>
      if calculateDistanceSq current e < calculateDistanceSq current b then some e
      else some b) none

/-- `navigateSpatial(direction)`: with no selection, select the first
element; otherwise filter the other elements through `isInDirection` and
select the closest candidate, leaving the state unchanged when there is
none. -/
def navigateSpatial (m : KeyboardNavigationManager) (direction : Direction) :
    KeyboardNavigationManager :=
  match m.state.selectedId with
  | none => selectFirst m
  | some sel =>
    match getElement m.elements sel with
    | none => m
    | some current =>
      let candidates := m.elements.filter
        (fun e => e.id != sel && isInDirection current e direction)
      match closestCandidate current candidates with
      | none => m
      | some best => selectElement m best.id

/-- `moveSelected(deltaX, deltaY)`: shift the selected element in place;
no-op without a selection or when the selected id is not in the store.
Since store ids are unique, updating the matching entry models the
in-place mutation of the object returned by `Map.get`. -/
def moveSelected (m : KeyboardNavigationManager) (deltaX deltaY : ℚ) :
    KeyboardNavigationManager :=
  match m.state.selectedId with
  | none => m
  | some sel =>
    match getElement m.elements sel with
    | none => m
    | some _ =>
      { m with elements := m.elements.map (fun e =>
          if e.id == sel then { e with x := e.x + deltaX, y := e.y + deltaY }
          else e) }

/-- `getCreationPosition()`: to the right of the selection when one
exists, otherwise offset `(-60, -40)` from the center of the viewport's
world bounds. -/
def getCreationPosition (m : KeyboardNavigationManager) : Point :=
  let fallback :=
    let viewportBounds := getViewportBounds m.viewport m.canvasW m.canvasH
    (⟨viewportBounds.x + viewportBounds.width / 2 - 60,
      viewportBounds.y + viewportBounds.height / 2 - 40⟩ : Point)
  match m.state.selectedId with
  | none => fallback
  | some sel =>
    match getElement m.elements sel with
    | some selected => ⟨selected.x + 200, selected.y⟩
    | none => fallback

/-- `createClass()` with the generated fresh id passed explicitly
(`generateId` concatenates a timestamp and a random suffix). -/
def createClass (m : KeyboardNavigationManager) (id : String) :
    KeyboardNavigationManager :=
  let position := getCreationPosition m
  let element : DiagramElement :=
    ⟨id, position.x, position.y, 120, 80, .cls, []⟩
  selectElement { m with elements := storeSet m.elements element } id

/-- `createMethod()`: a 100×60 `method` element. -/
def createMethod (m : KeyboardNavigationManager) (id : String) :
    KeyboardNavigationManager :=
  let position := getCreationPosition m
  let element : DiagramElement :=
    ⟨id, position.x, position.y, 100, 60, .method, []⟩
  selectElement { m with elements := storeSet m.elements element } id

/-- `createInterface()`: a 140×70 `interface` element. -/
def createInterface (m : KeyboardNavigationManager) (id : String) :
    KeyboardNavigationManager :=
  let position := getCreationPosition m
  let element : DiagramElement :=
    ⟨id, position.x, position.y, 140, 70, .interface, []⟩
  selectElement { m with elements := storeSet m.elements element } id

/-- `createConnected()`: falls back to `createClass` without a selection;
otherwise creates a class at `(parent.x + 200, parent.y)` and records the
bidirectional connection (the parent object is mutated in place, so its
map entry keeps its position). -/
def createConnected (m : KeyboardNavigationManager) (id : String) :
    KeyboardNavigationManager :=
  match m.state.selectedId with
  | none => createClass m id
  | some sel =>
    match getElement m.elements sel with
    | none => m
    | some parent =>
      let element : DiagramElement :=
        ⟨id, parent.x + 200, parent.y, 120, 80, .cls, [parent.id]⟩
      let withParent := m.elements.map (fun o =>
        if o.id == sel then { o with connections := o.connections ++ [id] }
        else o)
      selectElement { m with elements := storeSet withParent element } id

/-- `deleteSelected()`: filter the deleted id out of each connected
neighbor's `connections` (elements listed in the deleted element's own
`connections`), remove the element, call `navigateNext()`, and clear the
selection when it still equals the deleted id (which happens exactly when
the store became empty). -/
def deleteSelected (m : KeyboardNavigationManager) : KeyboardNavigationManager :=
  match m.state.selectedId with
  | none => m
  | some sel =>
    let cleaned :=
      match getElement m.elements sel with
      | none => m.elements
      | some element =>
        m.elements.map (fun (c : DiagramElement) =>
          if element.connections.contains c.id then
            { c with connections := c.connections.filter (fun i => i != sel) }
          else c)
    let remaining := cleaned.filter (fun e => e.id != sel)
    let m3 := navigateNext { m with elements := remaining }
    if m3.state.selectedId = some sel then
      { m3 with state := { m3.state with selectedId := none } }
    else m3

/-- `setMode(mode)`. -/
def setMode (m : KeyboardNavigationManager) (mode : Mode) :
    KeyboardNavigationManager :=
  { m with state := { m.state with mode := mode } }

/-- Public `addElement(element)`. -/
def addElement (m : KeyboardNavigationManager) (e : DiagramElement) :
    KeyboardNavigationManager :=
  { m with elements := storeSet m.elements e }

/-- Public `removeElement(id)`. -/
def removeElement (m : KeyboardNavigationManager) (id : String) :
    KeyboardNavigationManager :=
  let m' := { m with elements := m.elements.filter (fun e => e.id != id) }
  if m'.state.selectedId = some id then
    { m' with state := { m'.state with selectedId := none } }
  else m'

/-- The command surface of the controller that mutates navigation state
(the id arguments stand for the generated fresh ids). -/
inductive NavCommand where
  | navigateSpatialCmd (direction : Direction)
  | navigateNextCmd
  | navigatePreviousCmd
  | moveSelectedCmd (deltaX deltaY : ℚ)
  | createClassCmd (id : String)
  | createMethodCmd (id : String)
  | createInterfaceCmd (id : String)
  | createConnectedCmd (id : String)
  | deleteSelectedCmd
  | setModeCmd (mode : Mode)
  | addElementCmd (e : DiagramElement)
  | removeElementCmd (id : String)

/-- Dispatch one command. -/
def applyCommand (m : KeyboardNavigationManager) : NavCommand → KeyboardNavigationManager
  | .navigateSpatialCmd d => navigateSpatial m d
  | .navigateNextCmd => navigateNext m
  | .navigatePreviousCmd => navigatePrevious m
  | .moveSelectedCmd dx dy => moveSelected m dx dy
  | .createClassCmd id => createClass m id
  | .createMethodCmd id => createMethod m id
  | .createInterfaceCmd id => createInterface m id
  | .createConnectedCmd id => createConnected m id
  | .deleteSelectedCmd => deleteSelected m
  | .setModeCmd mode => setMode m mode
  | .addElementCmd e => addElement m e
  | .removeElementCmd id => removeElement m id

/-- The connection-symmetry invariant of the element store: whenever an
element lists another store member, that member lists it back. -/
def SymmetricConnections (s : ElementStore) : Prop :=
  ∀ a ∈ s, ∀ b ∈ s, b.id ∈ a.connections → a.id ∈ b.connections

/-- The candidate region claim C7 describes for direction `right`, read
strictly: the candidate lies in the half-plane beyond the selected
element's right edge (no tolerance on the primary axis), inside the
perpendicular overlap band. Written from the claim's words, for
comparison with the source's `isInDirection`. -/
def StrictRightHalfPlane (fromEl toEl : DiagramElement) : Prop :=
  toEl.x > fromEl.x + fromEl.width ∧
    |toEl.y + toEl.height/2 - fromEl.y - fromEl.height/2| < fromEl.height/2 + 30

/-- Propositional restatement of the source's directional filter: the
primary-axis half-plane is relaxed by the same 30-unit tolerance as the
perpendicular band. -/
def InDirectionProp (fromEl toEl : DiagramElement) : Direction → Prop
  | .left => toEl.x + toEl.width < fromEl.x + 30 ∧
      |toEl.y + toEl.height/2 - fromEl.y - fromEl.height/2| < fromEl.height/2 + 30
  | .right => toEl.x > fromEl.x + fromEl.width - 30 ∧
      |toEl.y + toEl.height/2 - fromEl.y - fromEl.height/2| < fromEl.height/2 + 30
  | .up => toEl.y + toEl.height < fromEl.y + 30 ∧
      |toEl.x + toEl.width/2 - fromEl.x - fromEl.width/2| < fromEl.width/2 + 30
  | .down => toEl.y > fromEl.y + fromEl.height - 30 ∧
      |toEl.x + toEl.width/2 - fromEl.x - fromEl.width/2| < fromEl.width/2 + 30

/-- Concrete element fixture without connections. -/
def mkElem (id : String) (x y width height : ℚ) : DiagramElement :=
  ⟨id, x, y, width, height, .cls, []⟩

/-- Fixture: three unconnected elements in insertion order A, B, C with
B selected. -/
def mStoreABC : KeyboardNavigationManager :=
  ⟨⟨some "B", .select, []⟩,
   [mkElem "A" 0 0 10 10, mkElem "B" 100 0 10 10, mkElem "C" 200 0 10 10],
   initialViewport, 800, 600⟩

/-- Fixture: two mutually connected elements A ↔ B with A selected. -/
def mStoreAB : KeyboardNavigationManager :=
  ⟨⟨some "A", .select, []⟩,
   [⟨"A", 0, 0, 120, 80, .cls, ["B"]⟩, ⟨"B", 200, 0, 120, 80, .cls, ["A"]⟩],
   initialViewport, 800, 600⟩

/-- Fixture for C6: narrow elements (width 10); B sits in the 30-unit
tolerance gap left of A's left edge. -/
def mThin : KeyboardNavigationManager :=
  ⟨⟨some "A", .select, []⟩,
   [mkElem "A" 100 100 10 10, mkElem "B" 85 100 10 10],
   initialViewport, 800, 600⟩

/-- Fixture for C7: B overlaps A horizontally by 20 units, so B is left
of A's right edge yet inside the source's tolerant filter. -/
def mOverlap : KeyboardNavigationManager :=
  ⟨⟨some "A", .select, []⟩,
   [mkElem "A" 0 0 100 80, mkElem "B" 80 0 100 80],
   initialViewport, 800, 600⟩

/-- Fixture: the spec scenario layout A(100,100,100,80), B(300,100,100,80)
with A selected. -/
def mScenario : KeyboardNavigationManager :=
  ⟨⟨some "A", .select, []⟩,
   [mkElem "A" 100 100 100 80, mkElem "B" 300 100 100 80],
   initialViewport, 800, 600⟩

/-- Fixture: empty store, nothing selected, default 800×600 canvas at the
initial viewport (world bounds {0,0,800,600}). -/
def mEmpty : KeyboardNavigationManager :=
  ⟨⟨none, .select, []⟩, [], initialViewport, 800, 600⟩

/-- Fixture: two elements with A selected, for the move-frame witness. -/
def mMoveFix : KeyboardNavigationManager :=
  ⟨⟨some "A", .select, []⟩,
   [mkElem "A" 100 100 120 80, mkElem "B" 300 100 120 80],
   initialViewport, 800, 600⟩

/-! ## Viewport theorems -/

/-- The zoom written by `zoomAt` is the clamped product. -/
theorem zoomAt_zoom (v : Viewport) (p : Point) (f : ℚ) :
    (zoomAt v p f).zoom = max (1/10) (min 5 (v.zoom * f)) := rfl

/-- `zoomAt` always lands the zoom inside `[0.1, 5]`, whatever the input. -/
theorem zoomAt_zoom_bounds (v : Viewport) (p : Point) (f : ℚ) :
    1/10 ≤ (zoomAt v p f).zoom ∧ (zoomAt v p f).zoom ≤ 5 := by
  rw [zoomAt_zoom]
  exact ⟨le_max_left _ _, max_le (by norm_num) (min_le_left _ _)⟩

/-- `pan` does not touch the zoom. -/
theorem pan_zoom (v : Viewport) (dx dy : ℚ) : (pan v dx dy).zoom = v.zoom := rfl

/-- Any `pan`/`zoomAt` sequence started inside the zoom bounds stays
inside them. -/
theorem foldl_panZoom_zoom_bounded (ops : List PanZoomOp) :
    ∀ v : Viewport, 1/10 ≤ v.zoom → v.zoom ≤ 5 →
      1/10 ≤ (ops.foldl applyPanZoom v).zoom ∧ (ops.foldl applyPanZoom v).zoom ≤ 5 := by
  induction ops with
  | nil => intro v h1 h2; exact ⟨h1, h2⟩
  | cons op rest ih =>
    intro v h1 h2
    cases op with
    | pan dx dy =>
      exact ih (pan v dx dy) (by rw [pan_zoom]; exact h1) (by rw [pan_zoom]; exact h2)
    | zoomAt p f =>
      exact ih (zoomAt v p f) (zoomAt_zoom_bounds v p f).1 (zoomAt_zoom_bounds v p f).2

/-- C1, counterexample: `setViewport` performs no clamping, so the
mutating operation `setViewport {x:0, y:0, zoom:10}`, issued from the
initial state, leaves the viewport with `zoom = 10 ∉ [0.1, 5]`. -/
theorem setViewport_zoom_unclamped :
    (setViewport initialViewport ⟨0, 0, 10⟩).zoom = 10 ∧
      ¬ ((setViewport initialViewport ⟨0, 0, 10⟩).zoom ≤ 5) := by
  constructor
  · rfl
  · rw [show (setViewport initialViewport ⟨0, 0, 10⟩).zoom = 10 from rfl]
    norm_num

/-- C1, amended: `pan` preserves the zoom and `zoomAt` clamps it into
`[0.1, 5]`, so after any sequence of `pan` and `zoomAt` calls from the
initial state `{x:0, y:0, zoom:1}` the zoom lies in `[0.1, 5]`; the
invariant does not extend to `setViewport` or to the `focusOnBounds`
animation, which write the zoom unclamped. -/
theorem panZoom_sequence_zoom_bounded (ops : List PanZoomOp) :
    1/10 ≤ (ops.foldl applyPanZoom initialViewport).zoom ∧
      (ops.foldl applyPanZoom initialViewport).zoom ≤ 5 :=
  foldl_panZoom_zoom_bounded ops initialViewport (by norm_num [initialViewport])
    (by norm_num [initialViewport])

/-- C2: `focusOnBounds` applies no epsilon floor to degenerate bounds; on
the 0×0 bounds with the default 800×600 canvas and padding 50 both
quotients are divisions by zero and the computed target zoom is
`+Infinity`, not a finite number. -/
theorem focusTargetZoom_degenerate_posInf :
    focusTargetZoom 800 600 50 ⟨0, 0, 0, 0⟩ = JsNum.posInf := by
  norm_num [focusTargetZoom, jsDiv, jsMin]

/-- C3: for any viewport with nonzero zoom, `zoomAt(p, f)` leaves the
world point under the screen point `p` unchanged, clamping included. -/
theorem zoomAt_preserves_screenToWorld (v : Viewport) (p : Point) (f : ℚ)
    (hz : v.zoom ≠ 0) :
    screenToWorld (zoomAt v p f) p = screenToWorld v p := by
  have hpos : (0:ℚ) < max (1/10) (min 5 (v.zoom * f)) :=
    lt_of_lt_of_le (by norm_num) (le_max_left _ _)
  have hz' : max (1/10) (min 5 (v.zoom * f)) ≠ 0 := ne_of_gt hpos
  ext
  · show (p.x - (v.x + (p.x - ((p.x - v.x) / v.zoom * max (1/10) (min 5 (v.zoom * f)) + v.x)))) /
        max (1/10) (min 5 (v.zoom * f)) = (p.x - v.x) / v.zoom
    field_simp
    ring
  · show (p.y - (v.y + (p.y - ((p.y - v.y) / v.zoom * max (1/10) (min 5 (v.zoom * f)) + v.y)))) /
        max (1/10) (min 5 (v.zoom * f)) = (p.y - v.y) / v.zoom
    field_simp
    ring

/-- C3, witness: concrete instance at the initial viewport, screen point
`(400, 300)` and factor 2. -/
theorem zoomAt_preserves_screenToWorld_witness :
    initialViewport.zoom ≠ 0 ∧
      screenToWorld (zoomAt initialViewport ⟨400, 300⟩ 2) ⟨400, 300⟩ =
        screenToWorld initialViewport ⟨400, 300⟩ :=
  ⟨by norm_num [initialViewport],
   zoomAt_preserves_screenToWorld initialViewport ⟨400, 300⟩ 2
     (by norm_num [initialViewport])⟩

/-! ## Navigation helper lemmas -/

/-- Selecting only rewrites the navigation state. -/
theorem selectElement_elements (m : KeyboardNavigationManager) (id : String) :
    (selectElement m id).elements = m.elements := rfl

/-- The id written by `selectElement`. -/
theorem selectElement_selectedId (m : KeyboardNavigationManager) (id : String) :
    (selectElement m id).state.selectedId = some id := rfl

/-- `navigateNext` never changes the element store. -/
theorem navigateNext_elements (m : KeyboardNavigationManager) :
    (navigateNext m).elements = m.elements := by
  unfold navigateNext
  repeat' ((try dsimp only); split)
  all_goals rfl

/-- `indexOf` of an absent key is `-1`. -/
theorem jsIndexOf_eq_neg_one (l : List String) (a : String) (h : ∀ x ∈ l, x ≠ a) :
    jsIndexOf l a = -1 := by
  unfold jsIndexOf
  have hn : l.findIdx? (fun x => x == a) = none := by
    rw [List.findIdx?_eq_none_iff]
    intro x hx
    simp [h x hx]
  rw [hn]

/-- When the selected id is no longer a key, `navigateNext` lands on the
first key: `indexOf` yields `-1` and `(-1 + 1) mod n = 0`. -/
theorem navigateNext_selects_head (m : KeyboardNavigationManager) (sel : String)
    (h : m.state.selectedId = some sel)
    (habs : ∀ x ∈ idsOf m.elements, x ≠ sel)
    (k : String) (rest : List String) (hk : idsOf m.elements = k :: rest) :
    (navigateNext m).state.selectedId = some k := by
  unfold navigateNext
  rw [hk, h]
  dsimp only
  rw [jsIndexOf_eq_neg_one _ _ (by rw [← hk]; exact habs)]
  norm_num
  rfl

/-- Mapping an id-preserving update over a store keeps the key order. -/
theorem idsOf_map_id_preserving (s : ElementStore) (f : DiagramElement → DiagramElement)
    (hf : ∀ e, (f e).id = e.id) : idsOf (s.map f) = idsOf s := by
  simp only [idsOf, List.map_map]
  exact List.map_congr_left (fun e _ => hf e)

/-- Dropping the entries with a given id drops exactly the key. -/
theorem idsOf_filter_ne (s : ElementStore) (sel : String) :
    idsOf (s.filter (fun e => e.id != sel)) = (idsOf s).filter (fun i => i != sel) := by
  induction s with
  | nil => rfl
  | cons e t ih =>
    by_cases he : (e.id != sel) = true
    · simp [idsOf, List.filter_cons, he] at ih ⊢
      exact ih
    · simp [idsOf, List.filter_cons, he] at ih ⊢
      exact ih

/-- The post-deletion reselection step of `deleteSelected` (navigate, then
clear the selection if it still names the deleted id) always lands on the
first remaining key, or `none` when no key remains. -/
theorem deleteNavigate_selectedId (m2 : KeyboardNavigationManager) (sel : String)
    (h2 : m2.state.selectedId = some sel)
    (habs : ∀ x ∈ idsOf m2.elements, x ≠ sel) :
    (if (navigateNext m2).state.selectedId = some sel
      then { navigateNext m2 with state :=
        { (navigateNext m2).state with selectedId := none } }
      else navigateNext m2).state.selectedId = (idsOf m2.elements).head? := by
  cases hk : idsOf m2.elements with
  | nil =>
    have hnn : navigateNext m2 = m2 := by
      unfold navigateNext
      rw [hk]
    rw [hnn, h2]
    simp
  | cons k rest =>
    have hsel : (navigateNext m2).state.selectedId = some k :=
      navigateNext_selects_head m2 sel h2 habs k rest hk
    have hkne : k ≠ sel := habs k (by rw [hk]; exact List.mem_cons_self k rest)
    rw [hsel, if_neg (by simp [hkne]), hsel]
    simp

/-! ## Deletion theorems -/

/-- C4, counterexample: in the store [A, B, C] with B selected, deleting B
selects A — the first remaining element — not C, the element that follows
B in store order. (`indexOf` of the already-deleted id returns `-1`, so
the "next" index is always 0.) -/
theorem deleteSelected_cex :
    (deleteSelected mStoreABC).state.selectedId = some "A" ∧
      (deleteSelected mStoreABC).state.selectedId ≠ some "C" := by decide

/-- C4, amended: deleting the selected element always moves the selection
to the first element of the remaining store in insertion order, or to
`none` when the store becomes empty. (This agrees with the claim when the
deleted element was first or last in store order — in particular, in the
two-element case A↔B with A selected, deleting A selects B — but not for
a middle element.) -/
theorem deleteSelected_selects_first_remaining (m : KeyboardNavigationManager)
    (sel : String) (h : m.state.selectedId = some sel) :
    (deleteSelected m).state.selectedId =
      ((idsOf m.elements).filter (fun i => i != sel)).head? := by
  unfold deleteSelected
  rw [h]
  dsimp only
  cases hel : getElement m.elements sel with
  | none =>
    simp only
    have hids : idsOf (m.elements.filter (fun e => e.id != sel)) =
        (idsOf m.elements).filter (fun i => i != sel) := idsOf_filter_ne _ _
    have habs : ∀ x ∈ idsOf (m.elements.filter (fun e => e.id != sel)), x ≠ sel := by
      intro x hx
      rw [hids] at hx
      exact bne_iff_ne.mp (List.mem_filter.mp hx).2
    exact (deleteNavigate_selectedId
      { m with elements := m.elements.filter (fun e => e.id != sel) } sel h habs).trans
      (by rw [show ({ m with elements := m.elements.filter (fun e => e.id != sel) } :
          KeyboardNavigationManager).elements =
            m.elements.filter (fun e => e.id != sel) from rfl, hids])
  | some el =>
    simp only
    have hmap : idsOf (m.elements.map (fun c =>
        if el.connections.contains c.id then
          { c with connections := c.connections.filter (fun i => i != sel) }
        else c)) = idsOf m.elements := by
      apply idsOf_map_id_preserving
      intro e
      by_cases hc : e.id ∈ el.connections <;> simp [hc]
    have hids : idsOf ((m.elements.map (fun c =>
        if el.connections.contains c.id then
          { c with connections := c.connections.filter (fun i => i != sel) }
        else c)).filter (fun e => e.id != sel)) =
        (idsOf m.elements).filter (fun i => i != sel) := by
      rw [idsOf_filter_ne, hmap]
    have habs : ∀ x ∈ idsOf ((m.elements.map (fun c =>
        if el.connections.contains c.id then
          { c with connections := c.connections.filter (fun i => i != sel) }
        else c)).filter (fun e => e.id != sel)), x ≠ sel := by
      intro x hx
      rw [hids] at hx
      exact bne_iff_ne.mp (List.mem_filter.mp hx).2
    exact (deleteNavigate_selectedId
      { m with elements := (m.elements.map (fun c =>
        if el.connections.contains c.id then
          { c with connections := c.connections.filter (fun i => i != sel) }
        else c)).filter (fun e => e.id != sel) } sel h habs).trans
      (by dsimp only; rw [hids])

/-- C4, witness: the two-element scenario A↔B with A selected; deletion
selects B, the head of the remaining store. -/
theorem deleteSelected_selects_first_remaining_witness :
    (deleteSelected mStoreAB).state.selectedId =
      ((idsOf mStoreAB.elements).filter (fun i => i != "A")).head? :=
  deleteSelected_selects_first_remaining mStoreAB "A" rfl

/-- A successful `get` returns a store member carrying the requested id. -/
theorem getElement_id_mem (s : ElementStore) (id : String) (e : DiagramElement)
    (h : getElement s id = some e) : e.id = id ∧ e ∈ s := by
  unfold getElement at h
  refine ⟨?_, List.mem_of_find?_eq_some h⟩
  have := List.find?_some h
  simpa using this

/-- The element store after `deleteSelected`: neighbors listed by the
deleted element lose the deleted id from their `connections`, then the
deleted entry itself is filtered out; the reselection steps do not touch
the store. -/
theorem deleteSelected_elements (m : KeyboardNavigationManager) (sel : String)
    (el : DiagramElement)
    (h : m.state.selectedId = some sel) (hel : getElement m.elements sel = some el) :
    (deleteSelected m).elements =
      (m.elements.map (fun c =>
        if el.connections.contains c.id then
          { c with connections := c.connections.filter (fun i => i != sel) }
        else c)).filter (fun e => e.id != sel) := by
  unfold deleteSelected
  rw [h]
  simp only [hel]
  split
  · exact navigateNext_elements _
  · exact navigateNext_elements _

/-- C5: starting from a store with symmetric `connections` and a selected
element present in it, `deleteSelected` leaves no remaining element whose
`connections` still lists the deleted id, and the remaining store is
again symmetric. -/
theorem deleteSelected_symmetry (m : KeyboardNavigationManager) (sel : String)
    (el : DiagramElement)
    (h : m.state.selectedId = some sel)
    (hel : getElement m.elements sel = some el)
    (hsym : SymmetricConnections m.elements) :
    (∀ e ∈ (deleteSelected m).elements, sel ∉ e.connections) ∧
      SymmetricConnections (deleteSelected m).elements := by
  obtain ⟨helid, helmem⟩ := getElement_id_mem _ _ _ hel
  rw [deleteSelected_elements m sel el h hel]
  have F1 : ∀ c : DiagramElement,
      ((if el.connections.contains c.id then
        { c with connections := c.connections.filter (fun i => i != sel) }
        else c) : DiagramElement).id = c.id := by
    intro c
    by_cases hc : el.connections.contains c.id = true
    · rw [if_pos hc]
    · rw [if_neg hc]
  have F2 : ∀ (c : DiagramElement) (x : String),
      x ∈ ((if el.connections.contains c.id then
        { c with connections := c.connections.filter (fun i => i != sel) }
        else c) : DiagramElement).connections → x ∈ c.connections := by
    intro c x hx
    by_cases hc : el.connections.contains c.id = true
    · rw [if_pos hc] at hx
      exact (List.mem_filter.mp hx).1
    · rw [if_neg hc] at hx
      exact hx
  have F3 : ∀ (c : DiagramElement) (x : String), x ∈ c.connections → x ≠ sel →
      x ∈ ((if el.connections.contains c.id then
        { c with connections := c.connections.filter (fun i => i != sel) }
        else c) : DiagramElement).connections := by
    intro c x hx hne
    by_cases hc : el.connections.contains c.id = true
    · rw [if_pos hc]
      exact List.mem_filter.mpr ⟨hx, bne_iff_ne.mpr hne⟩
    · rw [if_neg hc]
      exact hx
  constructor
  · intro e he
    obtain ⟨hemap, hene⟩ := List.mem_filter.mp he
    obtain ⟨c, hc, hce⟩ := List.mem_map.mp hemap
    by_cases hcc : el.connections.contains c.id = true
    · rw [← hce, if_pos hcc]
      intro hcontra
      exact absurd (bne_iff_ne.mp (List.mem_filter.mp hcontra).2) (by simp)
    · rw [← hce, if_neg hcc]
      intro hcontra
      have : el.id ∈ c.connections := by rw [helid]; exact hcontra
      have := hsym c hc el helmem this
      exact hcc (by simpa using this)
  · intro a ha b hb hba
    obtain ⟨hamap, hane⟩ := List.mem_filter.mp ha
    obtain ⟨habs, hbne⟩ := List.mem_filter.mp hb
    obtain ⟨ca, hca, hcae⟩ := List.mem_map.mp hamap
    obtain ⟨cb, hcb, hcbe⟩ := List.mem_map.mp habs
    have hbca : b.id ∈ ca.connections := F2 ca b.id (by rw [hcae]; exact hba)
    have hbid : b.id = cb.id := by rw [← hcbe]; exact F1 cb
    have hsymm := hsym ca hca cb hcb (by rw [← hbid]; exact hbca)
    have haid : a.id = ca.id := by rw [← hcae]; exact F1 ca
    have hanesel : a.id ≠ sel := bne_iff_ne.mp hane
    rw [← hcbe]
    rw [haid]
    exact F3 cb ca.id hsymm (by rw [← haid]; exact hanesel)

/-- C5, witness: the connected pair A ↔ B with A selected; the store is
symmetric, deletion scrubs A from B's connections and keeps symmetry. -/
theorem deleteSelected_symmetry_witness :
    (∀ e ∈ (deleteSelected mStoreAB).elements, "A" ∉ e.connections) ∧
      SymmetricConnections (deleteSelected mStoreAB).elements :=
  deleteSelected_symmetry mStoreAB "A" ⟨"A", 0, 0, 120, 80, .cls, ["B"]⟩
    rfl (by decide) (by unfold SymmetricConnections; decide)

/-! ## Move theorems -/

/-- C10: `moveSelected(dx, dy)` is a no-op without a valid selection;
otherwise it shifts exactly the selected element's `x`/`y` by the deltas
and leaves that element's other fields, every other element, the key
order, the navigation state, the viewport and the canvas unchanged. -/
theorem moveSelected_frame (m : KeyboardNavigationManager) (dx dy : ℚ) :
    (m.state.selectedId = none → moveSelected m dx dy = m) ∧
    (∀ sel, m.state.selectedId = some sel → getElement m.elements sel = none →
      moveSelected m dx dy = m) ∧
    (∀ sel e, m.state.selectedId = some sel → getElement m.elements sel = some e →
      (moveSelected m dx dy).state = m.state ∧
      (moveSelected m dx dy).viewport = m.viewport ∧
      (moveSelected m dx dy).canvasW = m.canvasW ∧
      (moveSelected m dx dy).canvasH = m.canvasH ∧
      idsOf (moveSelected m dx dy).elements = idsOf m.elements ∧
      getElement (moveSelected m dx dy).elements sel =
        some { e with x := e.x + dx, y := e.y + dy } ∧
      (∀ o ∈ m.elements, o.id ≠ sel → o ∈ (moveSelected m dx dy).elements) ∧
      (∀ o ∈ (moveSelected m dx dy).elements, o.id ≠ sel → o ∈ m.elements)) := by
  refine ⟨?_, ?_, ?_⟩
  · intro h
    unfold moveSelected
    rw [h]
  · intro sel h hnone
    unfold moveSelected
    rw [h]
    dsimp only
    rw [hnone]
  · intro sel e h he
    have hms : moveSelected m dx dy = { m with elements := m.elements.map (fun o =>
        if o.id == sel then { o with x := o.x + dx, y := o.y + dy } else o) } := by
      unfold moveSelected
      rw [h]
      dsimp only
      rw [he]
    rw [hms]
    refine ⟨rfl, rfl, rfl, rfl, ?_, ?_, ?_, ?_⟩
    · apply idsOf_map_id_preserving
      intro o
      by_cases ho : (o.id == sel) = true
      · rw [if_pos ho]
      · rw [if_neg ho]
    · show (m.elements.map (fun o =>
          if o.id == sel then { o with x := o.x + dx, y := o.y + dy } else o)).find?
          (fun o => o.id == sel) = some { e with x := e.x + dx, y := e.y + dy }
      rw [List.find?_map]
      have hcomp : ((fun o : DiagramElement => o.id == sel) ∘ (fun o : DiagramElement =>
          if o.id == sel then { o with x := o.x + dx, y := o.y + dy } else o)) =
          (fun o : DiagramElement => o.id == sel) := by
        funext o
        simp only [Function.comp_apply]
        by_cases ho : (o.id == sel) = true
        · rw [if_pos ho]
        · rw [if_neg ho]
      rw [hcomp]
      have hef : m.elements.find? (fun o => o.id == sel) = some e := he
      rw [hef]
      have hesel := List.find?_some hef
      simp only [beq_iff_eq] at hesel
      simp [hesel]
    · intro o ho hne
      refine List.mem_map.mpr ⟨o, ho, ?_⟩
      simp [hne]
    · intro o ho hne
      obtain ⟨c, hcmem, hco⟩ := List.mem_map.mp ho
      by_cases hc : (c.id == sel) = true
      · exfalso
        apply hne
        rw [← hco, if_pos hc]
        exact beq_iff_eq.mp hc
      · rw [← hco, if_neg hc]
        exact hcmem

/-- C10, witness: moving A by (10, −5) in the two-element fixture updates
exactly A's position and leaves the navigation state intact. -/
theorem moveSelected_frame_witness :
    getElement (moveSelected mMoveFix 10 (-5)).elements "A" =
      some { mkElem "A" 100 100 120 80 with x := 100 + 10, y := 100 + (-5) } ∧
    (moveSelected mMoveFix 10 (-5)).state = mMoveFix.state :=
  ⟨((moveSelected_frame mMoveFix 10 (-5)).2.2 "A" (mkElem "A" 100 100 120 80)
      rfl (by decide)).2.2.2.2.2.1,
   ((moveSelected_frame mMoveFix 10 (-5)).2.2 "A" (mkElem "A" 100 100 120 80)
      rfl (by decide)).1⟩

/-! ## Spatial navigation lemmas -/

/-- The Bool filter of the source coincides with its propositional
restatement. -/
theorem isInDirection_iff (a b : DiagramElement) (d : Direction) :
    isInDirection a b d = true ↔ InDirectionProp a b d := by
  cases d <;> simp [isInDirection, InDirectionProp]

/-- Fold invariant of `closestCandidate`: starting from `some b0`, the
result is `b0` (then `b0` is minimal in the suffix) or a strictly better
element, minimal over the whole list with the earliest minimum kept. -/
theorem closestCandidate_fold (cur : DiagramElement) :
    ∀ (l : List DiagramElement) (b0 b : DiagramElement),
      l.foldl (fun acc e =>
        match acc with
        | none => some e
        | some c =>
          if calculateDistanceSq cur e < calculateDistanceSq cur c then some e
          else some c) (some b0) = some b →
      (b = b0 ∧ ∀ e ∈ l, calculateDistanceSq cur b0 ≤ calculateDistanceSq cur e) ∨
      (∃ l1 l2, l = l1 ++ b :: l2 ∧
        calculateDistanceSq cur b < calculateDistanceSq cur b0 ∧
        (∀ e ∈ l1, calculateDistanceSq cur b < calculateDistanceSq cur e) ∧
        (∀ e ∈ l2, calculateDistanceSq cur b ≤ calculateDistanceSq cur e)) := by
  intro l
  induction l with
  | nil =>
    intro b0 b hb
    left
    exact ⟨(Option.some.inj hb).symm, by intro e he; cases he⟩
  | cons c t ih =>
    intro b0 b hb
    rw [List.foldl_cons] at hb
    by_cases hlt : calculateDistanceSq cur c < calculateDistanceSq cur b0
    · rw [show (match some b0 with
        | none => some c
        | some k =>
          if calculateDistanceSq cur c < calculateDistanceSq cur k then some c
          else some k) = some c by simp [hlt]] at hb
      rcases ih c b hb with ⟨rfl, hall⟩ | ⟨l1, l2, heq, hlt2, hl1, hl2⟩
      · right
        refine ⟨[], t, rfl, hlt, ?_, hall⟩
        intro e he
        cases he
      · right
        refine ⟨c :: l1, l2, by rw [heq, List.cons_append], lt_trans hlt2 hlt, ?_, hl2⟩
        intro e he
        rcases List.mem_cons.mp he with rfl | he2
        · exact hlt2
        · exact hl1 e he2
    · rw [show (match some b0 with
        | none => some c
        | some k =>
          if calculateDistanceSq cur c < calculateDistanceSq cur k then some c
          else some k) = some b0 by simp [hlt]] at hb
      rcases ih b0 b hb with ⟨rfl, hall⟩ | ⟨l1, l2, heq, hlt2, hl1, hl2⟩
      · left
        refine ⟨rfl, ?_⟩
        intro e he
        rcases List.mem_cons.mp he with rfl | he2
        · exact le_of_not_lt hlt
        · exact hall e he2
      · right
        refine ⟨c :: l1, l2, by rw [heq, List.cons_append], hlt2, ?_, hl2⟩
        intro e he
        rcases List.mem_cons.mp he with rfl | he2
        · exact lt_of_lt_of_le hlt2 (le_of_not_lt hlt)
        · exact hl1 e he2

/-- Folding `closestCandidate`'s step from a `some` accumulator never
returns `none`. -/
theorem closestCandidate_fold_isSome (cur : DiagramElement) :
    ∀ (l : List DiagramElement) (b0 : DiagramElement),
      ∃ b, l.foldl (fun acc e =>
        match acc with
        | none => some e
        | some c =>
          if calculateDistanceSq cur e < calculateDistanceSq cur c then some e
          else some c) (some b0) = some b := by
  intro l
  induction l with
  | nil => intro b0; exact ⟨b0, rfl⟩
  | cons c t ih =>
    intro b0
    rw [List.foldl_cons]
    by_cases hlt : calculateDistanceSq cur c < calculateDistanceSq cur b0
    · rcases ih c with ⟨b, hb⟩
      exact ⟨b, by rw [show (match some b0 with
        | none => some c
        | some k =>
          if calculateDistanceSq cur c < calculateDistanceSq cur k then some c
          else some k) = some c by simp [hlt]]; exact hb⟩
    · rcases ih b0 with ⟨b, hb⟩
      exact ⟨b, by rw [show (match some b0 with
        | none => some c
        | some k =>
          if calculateDistanceSq cur c < calculateDistanceSq cur k then some c
          else some k) = some b0 by simp [hlt]]; exact hb⟩

/-- `closestCandidate` on a nonempty list returns a member of minimal
squared center distance (the source's ascending stable sort plus take
first picks exactly such an element). -/
theorem closestCandidate_min (cur : DiagramElement) (l : List DiagramElement)
    (b : DiagramElement) (h : closestCandidate cur l = some b) :
    b ∈ l ∧ ∀ e ∈ l, calculateDistanceSq cur b ≤ calculateDistanceSq cur e := by
  cases l with
  | nil => cases h
  | cons c t =>
    unfold closestCandidate at h
    rw [List.foldl_cons] at h
    dsimp only at h
    rcases closestCandidate_fold cur t c b h with ⟨rfl, hall⟩ | ⟨l1, l2, heq, hlt2, hl1, hl2⟩
    · refine ⟨List.mem_cons_self _ _, ?_⟩
      intro e he
      rcases List.mem_cons.mp he with rfl | he2
      · exact le_refl _
      · exact hall e he2
    · constructor
      · rw [heq]
        exact List.mem_cons_of_mem _ (by simp)
      · intro e he
        rcases List.mem_cons.mp he with rfl | he2
        · exact le_of_lt hlt2
        · rw [heq] at he2
          rcases List.mem_append.mp he2 with h1 | h23
          · exact le_of_lt (hl1 e h1)
          · rcases List.mem_cons.mp h23 with rfl | h2
            · exact le_refl _
            · exact hl2 e h2

/-- `closestCandidate` returns `none` only on the empty list. -/
theorem closestCandidate_none (cur : DiagramElement) (l : List DiagramElement)
    (h : closestCandidate cur l = none) : l = [] := by
  cases l with
  | nil => rfl
  | cons c t =>
    unfold closestCandidate at h
    rw [List.foldl_cons] at h
    dsimp only at h
    rcases closestCandidate_fold_isSome cur t c with ⟨b, hb⟩
    rw [hb] at h
    cases h

/-- C6, counterexample: with the narrow layout A(100,100,10,10),
B(85,100,10,10) and A selected, `navigateSpatial("right")` selects B even
though B's right edge (95) lies strictly left of A's left edge (100):
the filter's 30-unit primary-axis tolerance exceeds the combined widths. -/
theorem navigateSpatial_right_monotone_cex :
    (navigateSpatial mThin .right).state.selectedId = some "B" ∧
      (mkElem "B" 85 100 10 10).x + (mkElem "B" 85 100 10 10).width <
        (mkElem "A" 100 100 10 10).x := by
  constructor
  · norm_num [navigateSpatial, mThin, mkElem, getElement, List.find?, List.filter,
      isInDirection, closestCandidate, calculateDistanceSq, selectElement,
      stateAfterSelect, List.foldl, abs]
  · norm_num [mkElem]

/-- C6, amended: whenever `navigateSpatial("right")` changes the selection
and the selected element's width plus the chosen element's width is at
least the 30-unit tolerance, the chosen element's right edge lies strictly
right of the current element's left edge; for thinner pairs the filter's
primary-axis tolerance can select an element violating this. -/
theorem navigateSpatial_right_monotone (m : KeyboardNavigationManager)
    (cid : String) (cur : DiagramElement) (j : String)
    (h : m.state.selectedId = some cid)
    (hcur : getElement m.elements cid = some cur)
    (hj : (navigateSpatial m .right).state.selectedId = some j)
    (hne : j ≠ cid) :
    ∃ e ∈ m.elements, e.id = j ∧
      (30 ≤ cur.width + e.width → cur.x < e.x + e.width) := by
  unfold navigateSpatial at hj
  rw [h] at hj
  dsimp only at hj
  rw [hcur] at hj
  dsimp only at hj
  cases hcc : closestCandidate cur
      (m.elements.filter (fun e => e.id != cid && isInDirection cur e .right)) with
  | none =>
    rw [hcc] at hj
    dsimp only at hj
    rw [h] at hj
    exact absurd (Option.some.inj hj).symm hne
  | some best =>
    rw [hcc] at hj
    dsimp only at hj
    have hbid : best.id = j := Option.some.inj hj
    obtain ⟨hbmem, hmin⟩ := closestCandidate_min cur _ best hcc
    obtain ⟨hmem, hfil⟩ := List.mem_filter.mp hbmem
    have hdir : isInDirection cur best .right = true := by
      simp only [Bool.and_eq_true] at hfil
      exact hfil.2
    rw [isInDirection_iff] at hdir
    obtain ⟨h1, _⟩ := hdir
    exact ⟨best, hmem, hbid, fun hw => by linarith⟩

/-- C6, witness: the spec scenario layout; navigating right from A selects
B, whose right edge (400) is right of A's left edge (100). -/
theorem navigateSpatial_right_monotone_witness :
    ∃ e ∈ mScenario.elements, e.id = "B" ∧
      (30 ≤ (mkElem "A" 100 100 100 80).width + e.width →
        (mkElem "A" 100 100 100 80).x < e.x + e.width) :=
  navigateSpatial_right_monotone mScenario "A" (mkElem "A" 100 100 100 80) "B"
    rfl (by decide)
    (by norm_num [navigateSpatial, mScenario, mkElem, getElement, List.find?,
      List.filter, isInDirection, closestCandidate, calculateDistanceSq,
      selectElement, stateAfterSelect, List.foldl, abs])
    (by decide)

/-- C7, counterexample: with A(0,0,100,80) selected and B(80,0,100,80)
overlapping A by 20 units, `navigateSpatial("right")` selects B although B
does not lie in the strict right half-plane beyond A's right edge: the
source also relaxes the primary axis by the 30-unit tolerance, so the
candidate set is not exactly the claimed one. -/
theorem navigateSpatial_candidates_cex :
    (navigateSpatial mOverlap .right).state.selectedId = some "B" ∧
      ¬ StrictRightHalfPlane (mkElem "A" 0 0 100 80) (mkElem "B" 80 0 100 80) := by
  constructor
  · norm_num [navigateSpatial, mOverlap, mkElem, getElement, List.find?, List.filter,
      isInDirection, closestCandidate, calculateDistanceSq, selectElement,
      stateAfterSelect, List.foldl, abs]
  · norm_num [StrictRightHalfPlane, mkElem]

/-- C7, amended: `navigateSpatial(direction)` considers as candidates
exactly the non-selected elements passing the direction test, where the
primary-axis half-plane is relaxed by the same 30-unit tolerance as the
perpendicular band (`InDirectionProp`); with no candidate it is a no-op,
and otherwise it selects a candidate of minimal center-to-center distance
(squared distance compares identically to the source's Euclidean
distance). -/
theorem navigateSpatial_candidates_min (m : KeyboardNavigationManager)
    (cid : String) (cur : DiagramElement) (d : Direction)
    (h : m.state.selectedId = some cid)
    (hcur : getElement m.elements cid = some cur) :
    (∀ e, e ∈ m.elements.filter (fun e => e.id != cid && isInDirection cur e d) ↔
        (e ∈ m.elements ∧ e.id ≠ cid ∧ InDirectionProp cur e d)) ∧
    (m.elements.filter (fun e => e.id != cid && isInDirection cur e d) = [] →
        navigateSpatial m d = m) ∧
    (m.elements.filter (fun e => e.id != cid && isInDirection cur e d) ≠ [] →
        ∃ b ∈ m.elements, b.id ≠ cid ∧ InDirectionProp cur b d ∧
          (navigateSpatial m d).state.selectedId = some b.id ∧
          ∀ e ∈ m.elements, e.id ≠ cid → InDirectionProp cur e d →
            calculateDistanceSq cur b ≤ calculateDistanceSq cur e) := by
  have hchar : ∀ e, e ∈ m.elements.filter
      (fun e => e.id != cid && isInDirection cur e d) ↔
      (e ∈ m.elements ∧ e.id ≠ cid ∧ InDirectionProp cur e d) := by
    intro e
    rw [List.mem_filter]
    constructor
    · rintro ⟨hm, hb⟩
      simp only [Bool.and_eq_true] at hb
      exact ⟨hm, bne_iff_ne.mp hb.1, (isInDirection_iff _ _ _).mp hb.2⟩
    · rintro ⟨hm, hne, hd⟩
      refine ⟨hm, ?_⟩
      simp only [Bool.and_eq_true]
      exact ⟨bne_iff_ne.mpr hne, (isInDirection_iff _ _ _).mpr hd⟩
  refine ⟨hchar, ?_, ?_⟩
  · intro hempty
    unfold navigateSpatial
    rw [h]
    dsimp only
    rw [hcur]
    dsimp only
    rw [hempty]
    rfl
  · intro hnonempty
    cases hcc : closestCandidate cur
        (m.elements.filter (fun e => e.id != cid && isInDirection cur e d)) with
    | none => exact absurd (closestCandidate_none _ _ hcc) hnonempty
    | some b =>
      obtain ⟨hbmem, hmin⟩ := closestCandidate_min cur _ b hcc
      obtain ⟨hm, hnecid, hdir⟩ := (hchar b).mp hbmem
      refine ⟨b, hm, hnecid, hdir, ?_, ?_⟩
      · unfold navigateSpatial
        rw [h]
        dsimp only
        rw [hcur]
        dsimp only
        rw [hcc]
        rfl
      · intro e hem hene hed
        exact hmin e ((hchar e).mpr ⟨hem, hene, hed⟩)

/-- C7, witness: the spec scenario; B is the unique candidate to the
right of A and gets selected with minimal center distance. -/
theorem navigateSpatial_candidates_min_witness :
    ∃ b ∈ mScenario.elements, b.id ≠ "A" ∧
      InDirectionProp (mkElem "A" 100 100 100 80) b .right ∧
      (navigateSpatial mScenario .right).state.selectedId = some b.id ∧
      ∀ e ∈ mScenario.elements, e.id ≠ "A" →
        InDirectionProp (mkElem "A" 100 100 100 80) e .right →
          calculateDistanceSq (mkElem "A" 100 100 100 80) b ≤
            calculateDistanceSq (mkElem "A" 100 100 100 80) e :=
  (navigateSpatial_candidates_min mScenario "A" (mkElem "A" 100 100 100 80) .right
      rfl (by decide)).2.2
    (by norm_num [mScenario, mkElem, List.filter, isInDirection, abs]
        decide)

/-! ## Creation theorems -/

/-- After `set(e.id, e)`, `get(e.id)` returns `e`, whether the key was
fresh (appended) or existing (overwritten in place). -/
theorem getElement_storeSet (s : ElementStore) (e : DiagramElement) :
    getElement (storeSet s e) e.id = some e := by
  unfold storeSet getElement
  by_cases hs : s.any (fun o => o.id == e.id) = true
  · rw [if_pos hs]
    induction s with
    | nil => cases hs
    | cons o t ih =>
      by_cases ho : (o.id == e.id) = true
      · simp only [List.map_cons, if_pos ho, List.find?_cons, beq_self_eq_true]
      · rw [List.map_cons, if_neg ho]
        have hof : (o.id == e.id) = false := by simpa using ho
        simp only [List.find?_cons, hof]
        apply ih
        rcases List.any_eq_true.mp hs with ⟨x, hx, hpx⟩
        rcases List.mem_cons.mp hx with rfl | hxt
        · exact absurd hpx ho
        · exact List.any_eq_true.mpr ⟨x, hxt, hpx⟩
  · rw [if_neg hs]
    induction s with
    | nil =>
      simp only [List.nil_append, List.find?_cons, beq_self_eq_true]
    | cons o t ih =>
      have ho : (o.id == e.id) = false := by
        by_contra hcon
        exact hs (List.any_eq_true.mpr ⟨o, List.mem_cons_self o t,
          Bool.not_eq_false _ ▸ hcon⟩)
      rw [List.cons_append]
      simp only [List.find?_cons, ho]
      apply ih
      intro hcon
      rcases List.any_eq_true.mp hcon with ⟨x, hx, hpx⟩
      exact hs (List.any_eq_true.mpr ⟨x, List.mem_cons_of_mem o hx, hpx⟩)

/-- C8, counterexample: with the empty store, no selection and world
bounds {0,0,800,600}, `createInterface` (140×70) puts the new element's
center at (410, 295), not at the viewport center (400, 300): the creation
offset (−60, −40) is hardcoded for the 120×80 class size. -/
theorem creation_center_cex :
    ((getElement (createInterface mEmpty "i1").elements "i1").map
      (fun e => (e.x + e.width / 2, e.y + e.height / 2))) = some (410, 295) ∧
    (getViewportBounds mEmpty.viewport mEmpty.canvasW mEmpty.canvasH).x +
      (getViewportBounds mEmpty.viewport mEmpty.canvasW mEmpty.canvasH).width / 2 = 400 ∧
    (getViewportBounds mEmpty.viewport mEmpty.canvasW mEmpty.canvasH).y +
      (getViewportBounds mEmpty.viewport mEmpty.canvasW mEmpty.canvasH).height / 2 = 300 ∧
    ((410 : ℚ), (295 : ℚ)) ≠ ((400 : ℚ), (300 : ℚ)) := by
  refine ⟨?_, ?_, ?_, by simp⟩
  · norm_num [createInterface, mEmpty, getCreationPosition, getViewportBounds,
      screenToWorld, initialViewport, storeSet, selectElement, stateAfterSelect,
      getElement, List.find?, Option.map]
  · norm_num [mEmpty, getViewportBounds, screenToWorld, initialViewport]
  · norm_num [mEmpty, getViewportBounds, screenToWorld, initialViewport]

/-- C8, amended: with no selection, every creation command places the new
element's top-left at the viewport world center minus the fixed offset
(60, 40) and auto-selects it; hence the 120×80 class element is exactly
centered in the viewport world bounds, while the 100×60 method and 140×70
interface elements are off-center by (−10, −10) and (+10, −5). -/
theorem creation_position_no_selection (m : KeyboardNavigationManager) (id : String)
    (h : m.state.selectedId = none) :
    getElement (createClass m id).elements id =
      some ⟨id, (getViewportBounds m.viewport m.canvasW m.canvasH).x +
          (getViewportBounds m.viewport m.canvasW m.canvasH).width / 2 - 60,
        (getViewportBounds m.viewport m.canvasW m.canvasH).y +
          (getViewportBounds m.viewport m.canvasW m.canvasH).height / 2 - 40,
        120, 80, .cls, []⟩ ∧
    ((getViewportBounds m.viewport m.canvasW m.canvasH).x +
        (getViewportBounds m.viewport m.canvasW m.canvasH).width / 2 - 60) + 120 / 2 =
      (getViewportBounds m.viewport m.canvasW m.canvasH).x +
        (getViewportBounds m.viewport m.canvasW m.canvasH).width / 2 ∧
    ((getViewportBounds m.viewport m.canvasW m.canvasH).y +
        (getViewportBounds m.viewport m.canvasW m.canvasH).height / 2 - 40) + 80 / 2 =
      (getViewportBounds m.viewport m.canvasW m.canvasH).y +
        (getViewportBounds m.viewport m.canvasW m.canvasH).height / 2 ∧
    (createClass m id).state.selectedId = some id ∧
    getElement (createMethod m id).elements id =
      some ⟨id, (getViewportBounds m.viewport m.canvasW m.canvasH).x +
          (getViewportBounds m.viewport m.canvasW m.canvasH).width / 2 - 60,
        (getViewportBounds m.viewport m.canvasW m.canvasH).y +
          (getViewportBounds m.viewport m.canvasW m.canvasH).height / 2 - 40,
        100, 60, .method, []⟩ ∧
    getElement (createInterface m id).elements id =
      some ⟨id, (getViewportBounds m.viewport m.canvasW m.canvasH).x +
          (getViewportBounds m.viewport m.canvasW m.canvasH).width / 2 - 60,
        (getViewportBounds m.viewport m.canvasW m.canvasH).y +
          (getViewportBounds m.viewport m.canvasW m.canvasH).height / 2 - 40,
        140, 70, .interface, []⟩ := by
  have hpos : getCreationPosition m =
      ⟨(getViewportBounds m.viewport m.canvasW m.canvasH).x +
          (getViewportBounds m.viewport m.canvasW m.canvasH).width / 2 - 60,
        (getViewportBounds m.viewport m.canvasW m.canvasH).y +
          (getViewportBounds m.viewport m.canvasW m.canvasH).height / 2 - 40⟩ := by
    unfold getCreationPosition
    rw [h]
  refine ⟨?_, by ring, by ring, rfl, ?_, ?_⟩
  · unfold createClass
    rw [hpos]
    exact getElement_storeSet m.elements _
  · unfold createMethod
    rw [hpos]
    exact getElement_storeSet m.elements _
  · unfold createInterface
    rw [hpos]
    exact getElement_storeSet m.elements _

/-- C8, witness: the concrete no-selection scenario with world bounds
{0,0,800,600}: the class element is created at top-left (340, 260) and
centered at (400, 300). -/
theorem creation_position_no_selection_witness :
    getElement (createClass mEmpty "c1").elements "c1" =
      some ⟨"c1", (getViewportBounds mEmpty.viewport mEmpty.canvasW mEmpty.canvasH).x +
          (getViewportBounds mEmpty.viewport mEmpty.canvasW mEmpty.canvasH).width / 2 - 60,
        (getViewportBounds mEmpty.viewport mEmpty.canvasW mEmpty.canvasH).y +
          (getViewportBounds mEmpty.viewport mEmpty.canvasW mEmpty.canvasH).height / 2 - 40,
        120, 80, .cls, []⟩ ∧
    (createClass mEmpty "c1").state.selectedId = some "c1" :=
  ⟨(creation_position_no_selection mEmpty "c1" rfl).1,
   (creation_position_no_selection mEmpty "c1" rfl).2.2.2.1⟩

/-! ## Focus-history lemmas -/

/-- `navigateNext` either leaves the manager unchanged or performs a
`selectElement`. -/
theorem navigateNext_fun_shape (m : KeyboardNavigationManager) :
    navigateNext m = m ∨ ∃ id, navigateNext m = selectElement m id := by
  unfold navigateNext
  repeat' ((try dsimp only); split)
  all_goals first
    | exact Or.inl rfl
    | exact Or.inr ⟨_, rfl⟩

/-- `navigatePrevious` either leaves the manager unchanged or performs a
`selectElement`. -/
theorem navigatePrevious_fun_shape (m : KeyboardNavigationManager) :
    navigatePrevious m = m ∨ ∃ id, navigatePrevious m = selectElement m id := by
  unfold navigatePrevious
  repeat' ((try dsimp only); split)
  all_goals first
    | exact Or.inl rfl
    | exact Or.inr ⟨_, rfl⟩

/-- `selectFirst` either leaves the manager unchanged or performs a
`selectElement`. -/
theorem selectFirst_fun_shape (m : KeyboardNavigationManager) :
    selectFirst m = m ∨ ∃ id, selectFirst m = selectElement m id := by
  unfold selectFirst
  repeat' split
  all_goals first
    | exact Or.inl rfl
    | exact Or.inr ⟨_, rfl⟩

/-- `navigateSpatial` either leaves the manager unchanged or performs a
`selectElement`. -/
theorem navigateSpatial_fun_shape (m : KeyboardNavigationManager) (d : Direction) :
    navigateSpatial m d = m ∨ ∃ id, navigateSpatial m d = selectElement m id := by
  unfold navigateSpatial
  repeat' ((try dsimp only); split)
  all_goals first
    | exact selectFirst_fun_shape m
    | exact Or.inl rfl
    | exact Or.inr ⟨_, rfl⟩

/-- `moveSelected` never touches the navigation state. -/
theorem moveSelected_state (m : KeyboardNavigationManager) (dx dy : ℚ) :
    (moveSelected m dx dy).state = m.state := by
  unfold moveSelected
  repeat' split
  all_goals rfl

/-- The history written by `selectElement`: still duplicate-free, still at
most 10 entries, and ending with the selected id. -/
theorem stateAfterSelect_fh (s : NavigationState) (id : String)
    (hnd : s.focusHistory.Nodup) (hlen : s.focusHistory.length ≤ 10) :
    (stateAfterSelect s id).focusHistory.Nodup ∧
    (stateAfterSelect s id).focusHistory.length ≤ 10 ∧
    (stateAfterSelect s id).focusHistory.getLast? = some id := by
  unfold stateAfterSelect
  dsimp only
  have hndl : ((s.focusHistory.filter (fun i => i != id)) ++ [id]).Nodup := by
    refine List.Nodup.append (hnd.filter _) (List.nodup_singleton id) ?_
    intro x hx hx1
    rw [List.mem_singleton] at hx1
    subst hx1
    exact absurd (List.mem_filter.mp hx).2 (by simp)
  have hlenf : (s.focusHistory.filter (fun i => i != id)).length ≤ 10 :=
    le_trans (List.length_filter_le _ _) hlen
  by_cases hb : ((s.focusHistory.filter (fun i => i != id)) ++ [id]).length > 10
  · rw [if_pos hb]
    refine ⟨List.Nodup.sublist (List.tail_sublist _) hndl, ?_, ?_⟩
    · rw [List.length_tail, List.length_append, List.length_singleton]
      omega
    · rcases hf : s.focusHistory.filter (fun i => i != id) with _ | ⟨f0, ft⟩
      · rw [hf] at hb
        simp at hb
      · rw [List.cons_append, List.tail_cons, List.getLast?_concat]
  · rw [if_neg hb]
    refine ⟨hndl, ?_, ?_⟩
    · omega
    · rw [List.getLast?_concat]

/-- Selecting an id already present in a full-or-smaller history moves it
to the end without evicting the oldest entry. -/
theorem stateAfterSelect_move_to_end (s : NavigationState) (id : String)
    (hlen : s.focusHistory.length ≤ 10) (hm : id ∈ s.focusHistory) :
    (stateAfterSelect s id).focusHistory =
      s.focusHistory.filter (fun i => i != id) ++ [id] := by
  unfold stateAfterSelect
  dsimp only
  rw [if_neg]
  rw [List.length_append, List.length_singleton]
  have : (s.focusHistory.filter (fun i => i != id)).length < s.focusHistory.length := by
    apply List.length_filter_lt_length_iff_exists.mpr
    exact ⟨id, hm, by simp⟩
  omega

/-- Shape of the reselection tail of `deleteSelected` (navigate, then
conditionally clear the selection), for any intermediate store: the final
history is the original one or a `selectElement` history, and the final
selection is the original one, a freshly selected id, or `none`. -/
theorem deleteTail_shape (m m2 : KeyboardNavigationManager) (sel : String)
    (hst : m2.state = m.state) (hmsel : m.state.selectedId = some sel) :
    ((if (navigateNext m2).state.selectedId = some sel
        then { navigateNext m2 with state :=
          { (navigateNext m2).state with selectedId := none } }
        else navigateNext m2).state.focusHistory = m.state.focusHistory ∧
      ((if (navigateNext m2).state.selectedId = some sel
          then { navigateNext m2 with state :=
            { (navigateNext m2).state with selectedId := none } }
          else navigateNext m2).state.selectedId = some sel ∨
        (if (navigateNext m2).state.selectedId = some sel
          then { navigateNext m2 with state :=
            { (navigateNext m2).state with selectedId := none } }
          else navigateNext m2).state.selectedId = none)) ∨
    (∃ id, (if (navigateNext m2).state.selectedId = some sel
        then { navigateNext m2 with state :=
          { (navigateNext m2).state with selectedId := none } }
        else navigateNext m2).state.focusHistory =
        (stateAfterSelect m.state id).focusHistory ∧
      ((if (navigateNext m2).state.selectedId = some sel
          then { navigateNext m2 with state :=
            { (navigateNext m2).state with selectedId := none } }
          else navigateNext m2).state.selectedId = some id ∨
        (if (navigateNext m2).state.selectedId = some sel
          then { navigateNext m2 with state :=
            { (navigateNext m2).state with selectedId := none } }
          else navigateNext m2).state.selectedId = none)) := by
  rcases navigateNext_fun_shape m2 with h3 | ⟨id, h3⟩
  · rw [h3]
    split
    · left
      exact ⟨by rw [hst], Or.inr rfl⟩
    · left
      refine ⟨by rw [hst], Or.inl ?_⟩
      show m2.state.selectedId = some sel
      rw [hst, hmsel]
  · rw [h3]
    split
    · right
      refine ⟨id, ?_, Or.inr rfl⟩
      show (stateAfterSelect m2.state id).focusHistory = _
      rw [hst]
    · right
      refine ⟨id, ?_, Or.inl rfl⟩
      show (stateAfterSelect m2.state id).focusHistory = _
      rw [hst]

/-- Every navigation command leaves the focus history untouched or
rewrites it exactly as one `selectElement(id)` does, and the selection it
writes is the old one, that id, or `none`. -/
theorem applyCommand_state_shape (m : KeyboardNavigationManager) (c : NavCommand) :
    ((applyCommand m c).state.focusHistory = m.state.focusHistory ∧
      ((applyCommand m c).state.selectedId = m.state.selectedId ∨
        (applyCommand m c).state.selectedId = none)) ∨
    (∃ id, (applyCommand m c).state.focusHistory =
        (stateAfterSelect m.state id).focusHistory ∧
      ((applyCommand m c).state.selectedId = some id ∨
        (applyCommand m c).state.selectedId = none)) := by
  cases c with
  | navigateSpatialCmd d =>
    dsimp only [applyCommand]
    rcases navigateSpatial_fun_shape m d with h | ⟨id, h⟩
    · rw [h]
      exact Or.inl ⟨rfl, Or.inl rfl⟩
    · rw [h]
      exact Or.inr ⟨id, rfl, Or.inl rfl⟩
  | navigateNextCmd =>
    dsimp only [applyCommand]
    rcases navigateNext_fun_shape m with h | ⟨id, h⟩
    · rw [h]
      exact Or.inl ⟨rfl, Or.inl rfl⟩
    · rw [h]
      exact Or.inr ⟨id, rfl, Or.inl rfl⟩
  | navigatePreviousCmd =>
    dsimp only [applyCommand]
    rcases navigatePrevious_fun_shape m with h | ⟨id, h⟩
    · rw [h]
      exact Or.inl ⟨rfl, Or.inl rfl⟩
    · rw [h]
      exact Or.inr ⟨id, rfl, Or.inl rfl⟩
  | moveSelectedCmd dx dy =>
    dsimp only [applyCommand]
    rw [moveSelected_state]
    exact Or.inl ⟨rfl, Or.inl rfl⟩
  | createClassCmd id =>
    exact Or.inr ⟨id, rfl, Or.inl rfl⟩
  | createMethodCmd id =>
    exact Or.inr ⟨id, rfl, Or.inl rfl⟩
  | createInterfaceCmd id =>
    exact Or.inr ⟨id, rfl, Or.inl rfl⟩
  | createConnectedCmd id =>
    dsimp only [applyCommand]
    unfold createConnected
    cases hsel : m.state.selectedId with
    | none => exact Or.inr ⟨id, rfl, Or.inl rfl⟩
    | some sel =>
      dsimp only
      cases getElement m.elements sel with
      | none => exact Or.inl ⟨rfl, Or.inl hsel⟩
      | some parent => exact Or.inr ⟨id, rfl, Or.inl rfl⟩
  | deleteSelectedCmd =>
    dsimp only [applyCommand]
    unfold deleteSelected
    cases hsel : m.state.selectedId with
    | none => exact Or.inl ⟨rfl, Or.inl hsel⟩
    | some sel =>
      dsimp only
      exact deleteTail_shape m _ sel rfl hsel
  | setModeCmd mode =>
    exact Or.inl ⟨rfl, Or.inl rfl⟩
  | addElementCmd e =>
    exact Or.inl ⟨rfl, Or.inl rfl⟩
  | removeElementCmd id =>
    dsimp only [applyCommand]
    unfold removeElement
    dsimp only
    split
    · exact Or.inl ⟨rfl, Or.inr rfl⟩
    · exact Or.inl ⟨rfl, Or.inl rfl⟩

/-- C9: starting from any state whose focus history is duplicate-free with
at most 10 entries, every navigation command preserves both properties,
and any command that changes the selection to an id leaves that id as the
last history entry; moreover `selectElement` always selects and appends
its id at the end, and reselecting an id already in the history moves it
to the end instead of appending a second copy. -/
theorem focusHistory_invariant (m : KeyboardNavigationManager)
    (hnd : m.state.focusHistory.Nodup) (hlen : m.state.focusHistory.length ≤ 10) :
    (∀ c : NavCommand,
      (applyCommand m c).state.focusHistory.Nodup ∧
      (applyCommand m c).state.focusHistory.length ≤ 10 ∧
      (∀ j, (applyCommand m c).state.selectedId = some j →
        m.state.selectedId ≠ some j →
        (applyCommand m c).state.focusHistory.getLast? = some j)) ∧
    (∀ id, (selectElement m id).state.selectedId = some id ∧
      (selectElement m id).state.focusHistory.getLast? = some id ∧
      (id ∈ m.state.focusHistory →
        (selectElement m id).state.focusHistory =
          m.state.focusHistory.filter (fun i => i != id) ++ [id])) := by
  constructor
  · intro c
    rcases applyCommand_state_shape m c with ⟨hfh, hsel⟩ | ⟨id, hfh, hsel⟩
    · refine ⟨by rw [hfh]; exact hnd, by rw [hfh]; exact hlen, ?_⟩
      intro j hj hne
      rcases hsel with hsel | hsel
      · exact absurd (hsel ▸ hj) hne
      · rw [hsel] at hj
        cases hj
    · obtain ⟨h1, h2, h3⟩ := stateAfterSelect_fh m.state id hnd hlen
      refine ⟨by rw [hfh]; exact h1, by rw [hfh]; exact h2, ?_⟩
      intro j hj hne
      rcases hsel with hsel | hsel
      · rw [hsel] at hj
        rw [hfh, h3, Option.some.inj hj]
      · rw [hsel] at hj
        cases hj
  · intro id
    obtain ⟨h1, h2, h3⟩ := stateAfterSelect_fh m.state id hnd hlen
    exact ⟨rfl, h3, fun hm => stateAfterSelect_move_to_end m.state id hlen hm⟩

/-- C9, witness: in the A↔B fixture (empty history), selecting "B"
selects it, puts it last in the history, and the move-to-end clause is
available for ids already present. -/
theorem focusHistory_invariant_witness :
    (selectElement mStoreAB "B").state.selectedId = some "B" ∧
    (selectElement mStoreAB "B").state.focusHistory.getLast? = some "B" ∧
    ("B" ∈ mStoreAB.state.focusHistory →
      (selectElement mStoreAB "B").state.focusHistory =
        mStoreAB.state.focusHistory.filter (fun i => i != "B") ++ ["B"]) :=
  (focusHistory_invariant mStoreAB (by decide) (by decide)).2 "B"
